import Mathlib

/-
  Verification of the trend-extrapolation / options-recommendation core of
  src/full_comprehensive_app.py.

  The two functions with actual logic are embedded shallowly:

  * predict_price_movement (source lines 39-49): ordinary least squares of
    the closing price on the integer day index 0..n-1, projected at index
    n + days - 1 (the last entry of np.arange(len(data), len(data)+days)).
    Prices are modelled as rationals (exact real arithmetic standing in for
    IEEE doubles).  The source returns (None, None) when fewer than two
    rows are present; here the result type is Option (ℚ × ℚ).
    sklearn LinearRegression computes the analytic OLS solution, which for
    one covariate is the closed form used below.

  * analyze_options (source lines 64-102): early-returns with an error
    message when stock.options is empty, otherwise displays the chain for
    one caller-chosen expiry and emits one of three recommendations by
    comparing predicted_price against current_price * 1.05 and
    current_price * 0.95.

  A second classifier embedding over an IEEE-style value type (finite /
  NaN / signed infinity) captures how the Python comparisons behave on
  non-finite inputs, and a DataFrame-level embedding captures the in-place
  Days column assignment of line 42.
-/

namespace TrendApp

open Finset

/-- The three recommendation categories emitted by the source
    (BUY CALL OPTIONS / BUY PUT OPTIONS / HOLD). -/
inductive Recommendation where
  | BUY_CALL : Recommendation
  | BUY_PUT : Recommendation
  | HOLD : Recommendation
deriving DecidableEq, Repr

/-- Sum of the regression covariate over indices 0..n-1
    (the x-values np.arange(len(data)) of line 42). -/
def Sx (n : ℕ) : ℚ := ∑ i in range n, (i : ℚ)

/-- Sum of squared indices over 0..n-1. -/
def Sxx (n : ℕ) : ℚ := ∑ i in range n, (i : ℚ) ^ 2

/-- Sum of the target values (the Close column, line 44). -/
def Sy (ys : List ℚ) : ℚ := ∑ i in range ys.length, ys.getD i 0

/-- Sum of index-times-close products. -/
def Sxy (ys : List ℚ) : ℚ := ∑ i in range ys.length, (i : ℚ) * ys.getD i 0

/-- Denominator of the closed-form simple-OLS slope: n * Σx² - (Σx)². -/
def olsDenom (n : ℕ) : ℚ := (n : ℚ) * Sxx n - (Sx n) ^ 2

/-- Slope of the least-squares line fitted by model.fit(X, y)
    (source lines 45-46); for a single covariate sklearn computes exactly
    this analytic OLS solution. -/
def olsSlope (ys : List ℚ) : ℚ :=
  ((ys.length : ℚ) * Sxy ys - Sx ys.length * Sy ys) / olsDenom ys.length

/-- Intercept of the fitted least-squares line. -/
def olsIntercept (ys : List ℚ) : ℚ :=
  (Sy ys - olsSlope ys * Sx ys.length) / (ys.length : ℚ)

/-- Embedding of predict_price_movement(data, days) (source lines 39-49),
    with `close` the Close column of the frame.
    Fewer than two rows: the source returns (None, None) at line 41, here
    `none`.  With days = 0 the array predictions would be empty and
    predictions[-1] would raise an IndexError, so that fallible path is
    also `none`.  Otherwise the result is the pair of the last observed
    close (iloc[-1], total here via getLastD whose default is unreachable
    because the list has length at least 2) and the fitted line evaluated
    at index len(data) + days - 1, the last element of
    np.arange(len(data), len(data) + days) (lines 47-49). -/
def predict_price_movement (close : List ℚ) (days : ℕ) : Option (ℚ × ℚ) :=
  if close.length < 2 then none
  else if days = 0 then none
  else
    some (close.getLastD 0,
      olsSlope close * ((close.length + days - 1 : ℕ) : ℚ) + olsIntercept close)

/-- The recommendation branch of analyze_options (source lines 86-100):
    strict comparison of the predicted price against 1.05 and 0.95 times
    the current price, in an if / elif / else chain. -/
def classify (current_price predicted_price : ℚ) : Recommendation :=
  if predicted_price > current_price * (105 / 100) then .BUY_CALL
  else if predicted_price < current_price * (95 / 100) then .BUY_PUT
  else .HOLD

/-- An IEEE-double value as seen by the Python comparison and
    multiplication operators: a finite value, NaN, or a signed infinity. -/
inductive FP where
  | fin (q : ℚ) : FP
  | nan : FP
  | pinf : FP
  | ninf : FP
deriving DecidableEq, Repr

/-- IEEE strict less-than: every comparison involving NaN is false. -/
def fpLt : FP → FP → Bool
  | .nan, _ => false
  | _, .nan => false
  | .fin a, .fin b => decide (a < b)
  | .fin _, .pinf => true
  | .fin _, .ninf => false
  | .pinf, _ => false
  | .ninf, .ninf => false
  | .ninf, _ => true

/-- IEEE multiplication on the value type: NaN is absorbing, an infinity
    times a nonzero finite value follows the sign rule, and zero times an
    infinity is NaN. -/
def fpMul : FP → FP → FP
  | .nan, _ => .nan
  | _, .nan => .nan
  | .fin a, .fin b => .fin (a * b)
  | .fin a, .pinf => if 0 < a then .pinf else if a < 0 then .ninf else .nan
  | .fin a, .ninf => if 0 < a then .ninf else if a < 0 then .pinf else .nan
  | .pinf, .fin b => if 0 < b then .pinf else if b < 0 then .ninf else .nan
  | .ninf, .fin b => if 0 < b then .ninf else if b < 0 then .pinf else .nan
  | .pinf, .pinf => .pinf
  | .pinf, .ninf => .ninf
  | .ninf, .pinf => .ninf
  | .ninf, .ninf => .pinf

/-- The same recommendation branch of lines 86-100 evaluated with IEEE
    semantics for non-finite operands: Python evaluates
    predicted_price > current_price * 1.05 and
    predicted_price < current_price * 0.95, where any comparison with NaN
    is false, so no branch guard can raise and the else branch catches the
    NaN cases. -/
def classify_fp (current_price predicted_price : FP) : Recommendation :=
  if fpLt (fpMul current_price (.fin (105 / 100))) predicted_price then .BUY_CALL
  else if fpLt predicted_price (fpMul current_price (.fin (95 / 100))) then .BUY_PUT
  else .HOLD

/-- One expiry of option quotes: the calls and puts tables fetched on
    lines 75-77.  The core only passes the rows through for display, so a
    row is abstracted to its strike. -/
structure OptionsChain where
  calls : List ℚ
  puts : List ℚ
deriving DecidableEq, Repr

/-- Result of analyze_options: either the early error return of lines
    68-70 (options data unavailable, no recommendation is produced), or
    the displayed tables together with the recommendation of lines
    86-100. -/
inductive AnalyzeResult where
  | unavailable : AnalyzeResult
  | recommendation (calls puts : List ℚ) (category : Recommendation) : AnalyzeResult
deriving DecidableEq, Repr

/-- The recommendation category carried by an analysis result, if any. -/
def AnalyzeResult.category? : AnalyzeResult → Option Recommendation
  | .unavailable => none
  | .recommendation _ _ r => some r

/-- Embedding of analyze_options(stock, predicted_price, current_price)
    (source lines 64-102).  `options` is the stock.options expiry list,
    `chainOf` the option_chain lookup, and `choice` the index of the
    expiry the user picks in the selectbox of line 74 (reduced modulo the
    list length, since the widget can only yield one of the listed
    dates). -/
def analyze_options (options : List String) (chainOf : String → OptionsChain)
    (choice : ℕ) (predicted_price current_price : ℚ) : AnalyzeResult :=
  if options.isEmpty then .unavailable
  else
    let expiry := options.getD (choice % options.length) ""
    let chain := chainOf expiry
    .recommendation chain.calls chain.puts (classify current_price predicted_price)

/-- A pandas DataFrame abstracted as named numeric columns (the only
    columns the core reads or writes are Close and Days). -/
abbrev DataFrame := List (String × List ℚ)

/-- Column lookup, df[name]: the first column with the given name, the
    empty column when the name is absent. -/
def getCol : DataFrame → String → List ℚ
  | [], _ => []
  | p :: t, name => if p.1 = name then p.2 else getCol t name

/-- Column assignment df[name] = vals: replaces the column when present,
    appends it otherwise (pandas semantics of line 42). -/
def setCol (df : DataFrame) (name : String) (vals : List ℚ) : DataFrame :=
  if df.any (fun p => p.1 == name) then
    df.map (fun p => if p.1 = name then (p.1, vals) else p)
  else df ++ [(name, vals)]

/-- Number of rows, len(data): the length of the Close column. -/
def nrows (df : DataFrame) : ℕ := (getCol df "Close").length

/-- State-passing embedding of predict_price_movement(data, days): the
    first component is the caller frame as the call leaves it.  With fewer
    than two rows the function returns at line 41 before touching the
    frame; otherwise line 42 assigns a fresh Days column into the caller
    frame before fitting, and the numeric result is computed from the
    frame after that assignment. -/
def predict_price_movement_df (df : DataFrame) (days : ℕ) :
    DataFrame × Option (ℚ × ℚ) :=
  if nrows df < 2 then (df, none)
  else
    let df' := setCol df "Days" ((List.range (nrows df)).map (fun i : ℕ => (i : ℚ)))
    (df', predict_price_movement (getCol df' "Close") days)

/- ------------------------------------------------------------------ -/
/- Supporting lemmas.                                                  -/
/- ------------------------------------------------------------------ -/

theorem Sx_mul_two (n : ℕ) : 2 * Sx n = (n : ℚ) ^ 2 - n := by
  induction n with
  | zero => simp [Sx]
  | succ m ih =>
    rw [Sx, Finset.sum_range_succ, ← Sx]
    push_cast
    push_cast at ih
    ring_nf
    ring_nf at ih
    linarith

theorem Sxx_mul_six (n : ℕ) : 6 * Sxx n = 2 * (n : ℚ) ^ 3 - 3 * (n : ℚ) ^ 2 + n := by
  induction n with
  | zero => simp [Sxx]
  | succ m ih =>
    rw [Sxx, Finset.sum_range_succ, ← Sxx]
    push_cast
    push_cast at ih
    ring_nf
    ring_nf at ih
    linarith

theorem olsDenom_mul_twelve (n : ℕ) :
    12 * olsDenom n = (n : ℚ) ^ 2 * ((n : ℚ) ^ 2 - 1) := by
  have h1 := Sx_mul_two n
  have h2 := Sxx_mul_six n
  rw [olsDenom]
  nlinarith [h1, h2]

theorem olsDenom_pos {n : ℕ} (hn : 2 ≤ n) : 0 < olsDenom n := by
  have h := olsDenom_mul_twelve n
  have hc : (2 : ℚ) ≤ (n : ℚ) := by exact_mod_cast hn
  have h4 : (4 : ℚ) ≤ (n : ℚ) ^ 2 := by nlinarith
  nlinarith [mul_nonneg (by linarith : (0 : ℚ) ≤ (n : ℚ) ^ 2 - 4)
    (by linarith : (0 : ℚ) ≤ (n : ℚ) ^ 2 - 1)]

theorem getD_range_map (f : ℕ → ℚ) {n i : ℕ} (h : i < n) :
    ((List.range n).map f).getD i 0 = f i := by
  simp [List.getD_eq_getElem?_getD, List.getElem?_map, List.getElem?_range, h]

theorem Sy_linear (a b : ℚ) (n : ℕ) :
    Sy ((List.range n).map (fun i : ℕ => a * (i : ℚ) + b)) = a * Sx n + b * n := by
  rw [Sy, List.length_map, List.length_range,
    Finset.sum_congr rfl (fun i hi => getD_range_map _ (Finset.mem_range.mp hi)),
    Sx, Finset.mul_sum, Finset.sum_add_distrib, Finset.sum_const, Finset.card_range]
  simp [mul_comm]

theorem Sxy_linear (a b : ℚ) (n : ℕ) :
    Sxy ((List.range n).map (fun i : ℕ => a * (i : ℚ) + b))
      = a * Sxx n + b * Sx n := by
  rw [Sxy, List.length_map, List.length_range, Sxx, Sx, Finset.mul_sum, Finset.mul_sum,
    ← Finset.sum_add_distrib]
  refine Finset.sum_congr rfl ?_
  intro i hi
  rw [getD_range_map _ (Finset.mem_range.mp hi)]
  ring

theorem olsSlope_linear (a b : ℚ) {n : ℕ} (hn : 2 ≤ n) :
    olsSlope ((List.range n).map (fun i : ℕ => a * (i : ℚ) + b)) = a := by
  have hd : olsDenom n ≠ 0 := ne_of_gt (olsDenom_pos hn)
  rw [olsSlope, List.length_map, List.length_range, Sy_linear, Sxy_linear]
  have hnum : (n : ℚ) * (a * Sxx n + b * Sx n) - Sx n * (a * Sx n + b * n)
      = a * olsDenom n := by
    rw [olsDenom]; ring
  rw [hnum, mul_div_assoc, div_self hd, mul_one]

theorem olsIntercept_linear (a b : ℚ) {n : ℕ} (hn : 2 ≤ n) :
    olsIntercept ((List.range n).map (fun i : ℕ => a * (i : ℚ) + b)) = b := by
  have hn0 : (n : ℚ) ≠ 0 := by
    have : (0 : ℚ) < n := by exact_mod_cast Nat.lt_of_lt_of_le (by norm_num) hn
    exact ne_of_gt this
  rw [olsIntercept, List.length_map, List.length_range, Sy_linear,
    olsSlope_linear a b hn]
  field_simp

theorem getLastD_range_map (f : ℕ → ℚ) {n : ℕ} (h : 0 < n) :
    ((List.range n).map f).getLastD 0 = f (n - 1) := by
  have hlt : n - 1 < n := by omega
  simp only [List.getLastD_eq_getLast?, List.getLast?_eq_getElem?, List.getElem?_map,
    List.getElem?_range, List.length_map, List.length_range, hlt]
  rfl

/-- On a perfectly linear input series the fitted line reproduces the data
    exactly, so the extrapolation is the line evaluated at the last
    generated index n + days - 1, and the current price is the last
    observed value a * (n - 1) + b. -/
theorem predict_linear (a b : ℚ) {n days : ℕ} (hn : 2 ≤ n) (hd : 1 ≤ days) :
    predict_price_movement ((List.range n).map (fun i : ℕ => a * (i : ℚ) + b)) days
      = some (a * ((n : ℚ) - 1) + b, a * ((n : ℚ) + days - 1) + b) := by
  rw [predict_price_movement]
  rw [List.length_map, List.length_range]
  rw [if_neg (by omega), if_neg (by omega)]
  rw [olsSlope_linear a b hn, olsIntercept_linear a b hn,
    getLastD_range_map _ (by omega)]
  rw [Nat.cast_sub (by omega : 1 ≤ n), Nat.cast_sub (by omega : 1 ≤ n + days)]
  push_cast
  norm_num

theorem getCol_map_set_ne (df : DataFrame) (n₁ n₂ : String) (v : List ℚ)
    (h : n₁ ≠ n₂) :
    getCol (df.map (fun p => if p.1 = n₁ then (p.1, v) else p)) n₂
      = getCol df n₂ := by
  induction df with
  | nil => rfl
  | cons p t ih =>
    by_cases h1 : p.1 = n₁
    · have h2 : ¬ p.1 = n₂ := by rw [h1]; exact h
      simp only [List.map_cons, if_pos h1, getCol, if_neg h2]
      exact ih
    · simp only [List.map_cons, if_neg h1, getCol]
      rw [ih]

theorem getCol_append_single_ne (df : DataFrame) (n₁ n₂ : String) (v : List ℚ)
    (h : n₁ ≠ n₂) :
    getCol (df ++ [(n₁, v)]) n₂ = getCol df n₂ := by
  induction df with
  | nil =>
    simp [getCol, h]
  | cons p t ih =>
    simp only [List.cons_append, getCol]
    rw [show t.append [(n₁, v)] = t ++ [(n₁, v)] from rfl, ih]

theorem getCol_setCol_ne (df : DataFrame) (n₁ n₂ : String) (v : List ℚ)
    (h : n₁ ≠ n₂) :
    getCol (setCol df n₁ v) n₂ = getCol df n₂ := by
  rw [setCol]
  split_ifs with hany
  · exact getCol_map_set_ne df n₁ n₂ v h
  · exact getCol_append_single_ne df n₁ n₂ v h

/- ------------------------------------------------------------------ -/
/- Claim theorems.                                                     -/
/- ------------------------------------------------------------------ -/

/-- C1: for every perfectly linear price series close i = a * i + b with
    length n ≥ 2 and every horizon days ≥ 1, predict_price_movement fits
    OLS on indices 0..n-1 and returns the last observed close
    a * (n - 1) + b together with the model value at index n + days - 1,
    namely a * (n + days - 1) + b (exactly, in rational arithmetic). -/
theorem linear_series_extrapolation (a b : ℚ) (n days : ℕ)
    (hn : 2 ≤ n) (hdays : 1 ≤ days) :
    predict_price_movement ((List.range n).map (fun i : ℕ => a * (i : ℚ) + b)) days
      = some (a * ((n : ℚ) - 1) + b, a * ((n : ℚ) + (days : ℚ) - 1) + b) :=
  predict_linear a b hn hdays

/-- Witness for C1 at a = 2, b = 5, n = 3, horizon 4. -/
theorem linear_series_extrapolation_witness :
    predict_price_movement ((List.range 3).map (fun i : ℕ => 2 * (i : ℚ) + 5)) 4
      = some (2 * ((3 : ℚ) - 1) + 5, 2 * ((3 : ℚ) + (4 : ℚ) - 1) + 5) :=
  linear_series_extrapolation 2 5 3 4 (by norm_num) (by norm_num)

/-- C2 counterexample: the claim quantifies over every pair of finite
    prices and asserts BUY_PUT exactly when projected < current * 0.95;
    at currentPrice = projectedPrice = -100 the projected price is below
    0.95 times the current price, yet the code emits BUY_CALL because the
    BUY_CALL guard -100 > -105 fires first in the elif chain. -/
theorem classifier_put_biconditional_fails :
    ((-100 : ℚ) < (-100) * (95 / 100)) ∧ classify (-100) (-100) = .BUY_CALL := by
  constructor
  · norm_num
  · norm_num [classify]

/-- C2 amended: BUY_CALL is emitted exactly when
    projected > current * 1.05; BUY_PUT exactly when
    projected < current * 0.95 and the BUY_CALL test does not hold (the
    priority matters only for negative current prices, where the two
    strict regions overlap); the boundary cases at currentPrice = 100 are
    as claimed: 105.0001 gives BUY_CALL, 105.0 gives HOLD, 94.9999 gives
    BUY_PUT, 95.0 gives HOLD. -/
theorem classifier_thresholds :
    (∀ current_price predicted_price : ℚ,
      (classify current_price predicted_price = .BUY_CALL
        ↔ predicted_price > current_price * (105 / 100))
      ∧ (classify current_price predicted_price = .BUY_PUT
        ↔ (predicted_price < current_price * (95 / 100)
            ∧ ¬ predicted_price > current_price * (105 / 100))))
    ∧ classify 100 (1050001 / 10000) = .BUY_CALL
    ∧ classify 100 105 = .HOLD
    ∧ classify 100 (949999 / 10000) = .BUY_PUT
    ∧ classify 100 95 = .HOLD := by
  refine ⟨?_, by norm_num [classify], by norm_num [classify],
    by norm_num [classify], by norm_num [classify]⟩
  intro c p
  unfold classify
  split_ifs with h1 h2 <;> simp_all

/-- C3: on the series [10, 12, 14, 16, 18, 20] with horizon 7 the pipeline
    yields currentPrice = 20 and projectedPrice = 34 (slope 2,
    intercept 10, queried at index 12), 34 exceeds 20 * 1.05, and the
    classifier emits BUY_CALL. -/
theorem end_to_end_example :
    predict_price_movement [10, 12, 14, 16, 18, 20] 7 = some (20, 34)
      ∧ (34 : ℚ) > 20 * (105 / 100)
      ∧ classify 20 34 = .BUY_CALL := by
  refine ⟨?_, by norm_num, by norm_num [classify]⟩
  norm_num [predict_price_movement, olsSlope, olsIntercept, Sxy, Sy, Sx, Sxx,
    olsDenom, Finset.sum_range_succ]

/-- C4 counterexample: with an empty expiry list analyze_options takes the
    early error return of lines 68-70 and produces no recommendation
    category at all, contradicting the claim that the category is still
    returned when no options data is available. -/
theorem no_options_no_recommendation :
    (analyze_options [] (fun _ => ⟨[], []⟩) 0 34 20).category? = none := rfl

/-- C4 amended: when no options data is available analyze_options reports
    the unavailability and returns without any recommendation; when
    options data is available a recommendation is always produced, and its
    category is classify(current, predicted) regardless of the chain
    contents or the chosen expiry. -/
theorem analyze_options_category (options : List String)
    (chainOf : String → OptionsChain) (choice : ℕ)
    (predicted_price current_price : ℚ) :
    (analyze_options options chainOf choice predicted_price current_price).category?
      = if options.isEmpty then none
        else some (classify current_price predicted_price) := by
  rw [analyze_options]
  split_ifs <;> rfl

/-- C5 counterexample: with currentPrice = 100 and projectedPrice = NaN
    the classification does not fail: both strict comparisons are false
    under IEEE semantics, so the catch-all branch returns the ordinary
    category HOLD. -/
theorem classify_nan_returns_hold :
    classify_fp (.fin 100) .nan = .HOLD := rfl

/-- C5 amended: for every classifier input pair in which currentPrice or
    projectedPrice is NaN or infinite, the call does not signal an error
    but returns one of the three ordinary categories.  In full: the branch
    is total on every pair; when either input is NaN both strict
    comparisons are false and HOLD is returned; with a finite current
    price, a projected price of +∞ gives BUY_CALL and -∞ gives BUY_PUT
    (the strict comparison against the finite threshold always holds);
    with a finite projected price, a current price of +∞ gives BUY_PUT
    (both thresholds are +∞) and -∞ gives BUY_CALL (both thresholds are
    -∞); and the doubly infinite pairs give HOLD on equal signs, BUY_PUT
    on (+∞, -∞) and BUY_CALL on (-∞, +∞). -/
theorem classify_nonfinite_never_fails :
    (∀ x y : FP, classify_fp x y = .BUY_CALL ∨ classify_fp x y = .BUY_PUT
      ∨ classify_fp x y = .HOLD)
    ∧ (∀ y : FP, classify_fp .nan y = .HOLD)
    ∧ (∀ x : FP, classify_fp x .nan = .HOLD)
    ∧ (∀ c : ℚ, classify_fp (.fin c) .pinf = .BUY_CALL)
    ∧ (∀ c : ℚ, classify_fp (.fin c) .ninf = .BUY_PUT)
    ∧ (∀ c : ℚ, classify_fp .pinf (.fin c) = .BUY_PUT)
    ∧ (∀ c : ℚ, classify_fp .ninf (.fin c) = .BUY_CALL)
    ∧ classify_fp .pinf .pinf = .HOLD
    ∧ classify_fp .ninf .ninf = .HOLD
    ∧ classify_fp .pinf .ninf = .BUY_PUT
    ∧ classify_fp .ninf .pinf = .BUY_CALL := by
  refine ⟨?_, ?_, ?_, ?_, ?_, ?_, ?_, ?_, ?_, ?_, ?_⟩
  · intro x y; unfold classify_fp; split_ifs <;> simp
  · intro y; cases y <;> rfl
  · intro x; cases x <;> norm_num [classify_fp, fpMul, fpLt]
  · intro c; rfl
  · intro c; rfl
  · intro c; norm_num [classify_fp, fpMul, fpLt]
  · intro c; norm_num [classify_fp, fpMul, fpLt]
  · norm_num [classify_fp, fpMul, fpLt]
  · norm_num [classify_fp, fpMul, fpLt]
  · norm_num [classify_fp, fpMul, fpLt]
  · norm_num [classify_fp, fpMul, fpLt]

/-- C6: on a series of length 0 or 1 predict_price_movement returns none
    (the source returns (None, None) at line 41) for every horizon; no
    numeric pair is produced. -/
theorem short_series_absent (close : List ℚ) (days : ℕ)
    (h : close.length = 0 ∨ close.length = 1) :
    predict_price_movement close days = none := by
  rw [predict_price_movement, if_pos (by omega)]

/-- Witness for C6 on the one-element series [7] with horizon 7. -/
theorem short_series_absent_witness :
    predict_price_movement [(7 : ℚ)] 7 = none :=
  short_series_absent [(7 : ℚ)] 7 (Or.inr rfl)

/-- C7 counterexample: the call is not free of side effects on the input
    frame: on a two-row frame holding only a Close column, the frame after
    the call has gained a Days column, so it is not the same records with
    the same columns as before. -/
theorem predict_mutates_frame :
    (predict_price_movement_df [("Close", [1, 2])] 7).1 ≠ [("Close", [1, 2])] := by
  intro hEq
  have hlen := congrArg List.length hEq
  simp [predict_price_movement_df, nrows, getCol, setCol] at hlen

/-- C7 amended: the call leaves every column other than Days unchanged
    (and leaves a frame with fewer than two rows untouched), but for two
    or more rows it writes a Days index column into the caller frame, so
    the frame is mutated rather than read-only. -/
theorem predict_preserves_other_columns (df : DataFrame) (days : ℕ) (name : String)
    (h : name ≠ "Days") :
    getCol (predict_price_movement_df df days).1 name = getCol df name := by
  rw [predict_price_movement_df]
  split_ifs with hlt
  · rfl
  · exact getCol_setCol_ne df "Days" name _ (Ne.symm h)

/-- Witness for C7 amended: the Close column of the example frame is
    unchanged by the call. -/
theorem predict_preserves_other_columns_witness :
    getCol (predict_price_movement_df [("Close", [1, 2])] 7).1 "Close"
      = getCol [("Close", [1, 2])] "Close" :=
  predict_preserves_other_columns [("Close", [1, 2])] 7 "Close" (by decide)

/-- C8: predict_price_movement is deterministic: two calls with identical
    series (of length at least 2) and identical horizon return identical
    (currentPrice, projectedPrice) pairs; the embedding is a pure function
    with no hidden state or randomness, mirroring the source computation
    which reads only its arguments. -/
theorem extrapolate_deterministic (close₁ close₂ : List ℚ) (days₁ days₂ : ℕ)
    (hc : close₁ = close₂) (hd : days₁ = days₂) (_hlen : 2 ≤ close₁.length) :
    predict_price_movement close₁ days₁ = predict_price_movement close₂ days₂ := by
  rw [hc, hd]

/-- Witness for C8 on the series [1, 2] with horizon 7. -/
theorem extrapolate_deterministic_witness :
    predict_price_movement [(1 : ℚ), 2] 7 = predict_price_movement [(1 : ℚ), 2] 7 :=
  extrapolate_deterministic [(1 : ℚ), 2] [(1 : ℚ), 2] 7 7 rfl rfl (by norm_num)

/-- C9: on a constant series of length n ≥ 2 (every close equal to c) and
    any horizon ≥ 1, the degenerate fit has slope 0 and intercept c, no
    numeric error occurs (the OLS denominator is nonzero for n ≥ 2), and
    the projected price equals c exactly; the current price is c as
    well. -/
theorem constant_series_extrapolation (c : ℚ) (n days : ℕ)
    (hn : 2 ≤ n) (hdays : 1 ≤ days) :
    predict_price_movement (List.replicate n c) days = some (c, c) := by
  have hmap : (List.range n).map (fun i : ℕ => (0 : ℚ) * (i : ℚ) + c)
      = List.replicate n c := by
    rw [show (fun i : ℕ => (0 : ℚ) * (i : ℚ) + c) = (fun _ : ℕ => c) by
      funext i; ring]
    simp [List.map_const']
  have h := predict_linear 0 c hn hdays
  rw [hmap] at h
  simpa using h

/-- Witness for C9 on the flat series of four fifties with horizon 7. -/
theorem constant_series_extrapolation_witness :
    predict_price_movement (List.replicate 4 (50 : ℚ)) 7 = some (50, 50) :=
  constant_series_extrapolation 50 4 7 (by norm_num) (by norm_num)

/-- C10: for every pair of finite prices (zero and negative included) the
    classification branch is total: the result is one of BUY_CALL, BUY_PUT
    and HOLD, and HOLD is the catch-all, returned exactly when neither
    strict threshold comparison holds. -/
theorem classifier_total :
    ∀ current_price predicted_price : ℚ,
      (classify current_price predicted_price = .BUY_CALL
        ∨ classify current_price predicted_price = .BUY_PUT
        ∨ classify current_price predicted_price = .HOLD)
      ∧ (classify current_price predicted_price = .HOLD
        ↔ (¬ predicted_price > current_price * (105 / 100)
            ∧ ¬ predicted_price < current_price * (95 / 100))) := by
  intro c p
  unfold classify
  split_ifs with h1 h2 <;> simp_all

end TrendApp
